import Mathlib

/-!
# Verification of the Twic value model (`Number` and `Value`)

This file is a shallow embedding of the Twic data-model library:

* `src/value/number.rs` and its submodules `number/utils.rs`, `number/impls.rs`
  (the `Number` sum type with its predicates, range checkers, getters and the
  three conversion families `get_<T>`, `as_<T>_exact`, `as_<T>`);
* `src/value.rs`, `src/value/index.rs` and `src/value/map.rs`
  (the `Value` tagged union and its indexing API).

Modelling conventions:

* Rust `u64` payloads are modelled as `ℕ`; wherever the source reads the
  payload as a machine integer of width `w` we reduce modulo `2 ^ w`
  explicitly, so every definition is total on the model type.
* Rust `f64` is modelled by `F64`: a NaN state, two signed infinities, and
  finite values stored as a sign bit together with a non-negative rational
  magnitude (`ℚ≥0`).  This mirrors the sign/magnitude structure of an IEEE-754
  bit pattern: `+0.0` and `-0.0` are distinct model values that compare equal
  under the IEEE equality `F64.ieeeEq`.  A bit-pattern comparison
  (`to_bits` in the source) is structural equality of `F64`, which is faithful
  because sign and magnitude determine the bit pattern of a finite double.
* Rust `f32` values are represented by their exact `f64` embedding (an `F64`
  value); the `f64 -> f32` cast rounds to 24 significand bits in the f32
  exponent range.
* `isize`/`usize` are modelled at 64 bits, matching the targets this crate is
  built for.
-/

namespace Twic

/-! ## Model of IEEE-754 binary64 values -/

/-- Model of a Rust `f64` value: NaN, signed infinity, or a finite value
given by its sign bit and non-negative magnitude. -/
inductive F64 where
  | finite (sign : Bool) (mag : ℚ≥0)
  | nan
  | inf (negative : Bool)
deriving DecidableEq

namespace F64

/-- `f64::is_nan`. -/
def isNan : F64 → Bool
  | .nan => true
  | _ => false

/-- `f64::is_infinite`. -/
def isInfinite : F64 → Bool
  | .inf _ => true
  | _ => false

/-- `f64::is_sign_negative`: the sign bit.  (Rust's `f64::NAN` has a clear
sign bit.) -/
def isSignNegative : F64 → Bool
  | .finite s _ => s
  | .nan => false
  | .inf b => b

/-- `f64::is_sign_positive`. -/
def isSignPositive (x : F64) : Bool := !x.isSignNegative

/-- `f64::abs`: clears the sign bit. -/
def abs : F64 → F64
  | .finite _ m => .finite false m
  | .nan => .nan
  | .inf _ => .inf false

/-- Unary negation on `f64`: flips the sign bit. -/
def neg : F64 → F64
  | .finite s m => .finite (!s) m
  | .nan => .nan
  | .inf b => .inf (!b)

/-- The signed rational value of a finite `F64` (zero for NaN/Inf, which every
caller below rules out first). -/
def val : F64 → ℚ
  | .finite s m => if s then -(m : ℚ) else (m : ℚ)
  | _ => 0

/-- IEEE-754 equality `==` on `f64`: NaN compares unequal to everything, and
`+0.0 == -0.0`. -/
def ieeeEq : F64 → F64 → Bool
  | .finite s₁ m₁, .finite s₂ m₂ => decide (val (.finite s₁ m₁) = val (.finite s₂ m₂))
  | .inf a, .inf b => a == b
  | _, _ => false

/-- IEEE-754 `<=` on `f64`: false whenever either side is NaN. -/
def ieeeLe : F64 → F64 → Bool
  | .nan, _ => false
  | _, .nan => false
  | .inf a, .inf b => a || !b
  | .inf a, .finite _ _ => a
  | .finite _ _, .inf b => !b
  | .finite s₁ m₁, .finite s₂ m₂ => decide (val (.finite s₁ m₁) ≤ val (.finite s₂ m₂))

end F64

/-! ## Rounding helpers for numeric casts

Rust's `as` casts between integers and floats round to nearest with ties to
even.  `natRoundSig prec n` rounds the natural number `n` to `prec`
significand bits. -/

/-- Round `n` to `prec` significant bits, ties to even (the rounding performed
by Rust's integer-to-float `as` casts). -/
def natRoundSig (prec n : ℕ) : ℕ :=
  if n < 2 ^ prec then n
  else
    let k := n.log2 + 1 - prec
    let q := n / 2 ^ k
    let r := n % 2 ^ k
    let h := 2 ^ (k - 1)
    let q' := if h < r then q + 1 else if r < h then q else if q % 2 = 0 then q else q + 1
    q' * 2 ^ k

/-- Floor of a non-negative rational as a natural number. -/
def magFloor (q : ℚ≥0) : ℕ := q.num / q.den

/-- `⌊log₂ q⌋` for a positive rational, used to locate the rounding grid for
the `f64 -> f32` cast. -/
def floorLog2 (q : ℚ≥0) : ℤ :=
  let a : ℤ := q.num.log2
  let b : ℤ := q.den.log2
  let e := a - b
  if q < 2 ^ (e - 1).toNat * (2 ^ (1 - e).toNat : ℚ≥0)⁻¹ then e - 2
  else if q < 2 ^ e.toNat * (2 ^ (-e).toNat : ℚ≥0)⁻¹ then e - 1
  else if q < 2 ^ (e + 1).toNat * (2 ^ (-(e + 1)).toNat : ℚ≥0)⁻¹ then e
  else e + 1

/-- `2 ^ s` as a positive rational, for `s : ℤ`. -/
def pow2z (s : ℤ) : ℚ≥0 :=
  if 0 ≤ s then 2 ^ s.toNat else (2 ^ (-s).toNat : ℚ≥0)⁻¹

/-- Round a non-negative rational to the nearest natural number, ties to
even. -/
def roundHalfEvenNat (q : ℚ≥0) : ℕ :=
  let f := magFloor q
  let r := q - (f : ℚ≥0)
  if (1 : ℚ≥0) < 2 * r then f + 1
  else if 2 * r < 1 then f
  else if f % 2 = 0 then f else f + 1

/-- The `f64 -> f32` `as` cast: round to 24 significand bits in the binary32
exponent range (subnormals down to `2 ^ (-149)`), overflowing to infinity past
the binary32 rounding boundary.  The result is the exact `f64` embedding of
the `f32` value. -/
def f64CastF32 : F64 → F64
  | .nan => .nan
  | .inf b => .inf b
  | .finite s m =>
    if m = 0 then .finite s 0
    else
      let e := floorLog2 m
      let sp := max (e - 23) (-149)
      let r := (roundHalfEvenNat (m * (pow2z sp)⁻¹) : ℚ≥0) * pow2z sp
      if (2 : ℚ≥0) ^ 128 - 2 ^ 104 < r then .inf s else .finite s r

/-- The `u64/u128 -> f64` `as` cast on a natural number: round to 53
significand bits (no overflow occurs below `2 ^ 128`). -/
def natCastF64 (n : ℕ) : F64 := .finite false (natRoundSig 53 n)

/-- The `u64 -> f32` `as` cast on a natural number: round to 24 significand
bits (no overflow occurs below `2 ^ 64`). -/
def natCastF32 (n : ℕ) : F64 := .finite false (natRoundSig 24 n)

/-- The signed-integer-to-`f64` `as` cast. -/
def intCastF64 (i : ℤ) : F64 := .finite (decide (i < 0)) (natRoundSig 53 i.natAbs)

/-- The signed-integer-to-`f32` `as` cast (exact for the 65-bit integer range
up to rounding to 24 bits; no overflow below `2 ^ 64`). -/
def intCastF32 (i : ℤ) : F64 := .finite (decide (i < 0)) (natRoundSig 24 i.natAbs)

/-- The `f64 -> u64`-style saturating `as` cast with upper saturation bound
`hi`: NaN to `0`, truncation toward zero, clamping into `[0, hi]`. -/
def f64CastNat (hi : ℕ) : F64 → ℕ
  | .nan => 0
  | .inf b => if b then 0 else hi
  | .finite s m => if s then 0 else min hi (magFloor m)

/-- The `f64`-to-signed-integer saturating `as` cast with target range
`[lo, hi]`: NaN to `0`, truncation toward zero, clamping into `[lo, hi]`. -/
def f64CastInt (lo hi : ℤ) : F64 → ℤ
  | .nan => 0
  | .inf b => if b then lo else hi
  | .finite s m => max lo (min hi (if s then -(magFloor m : ℤ) else (magFloor m : ℤ)))

/-- Interpret the low `w` bits of an integer as a `w`-bit two's-complement
value (Rust's narrowing `as` cast to a signed integer of width `w`). -/
def wrapI (w : ℕ) (i : ℤ) : ℤ :=
  let m := i % 2 ^ w
  if m < 2 ^ (w - 1) then m else m - 2 ^ w

/-! ## `number/utils.rs` -/

/-- `utils::f64_to_u64_no_sig_lossless`: convert `f64` to `u64` losslessly,
ignoring the sign bit. -/
def f64_to_u64_no_sig_lossless (n : F64) : Option ℕ :=
  if n.isInfinite || n.isNan then none
  else
    let n := n.abs
    -- u64::MAX as f64 rounds up to 2^64
    if F64.ieeeLe (natCastF64 (2 ^ 64 - 1)) n then none
    else
      let converted := f64CastNat (2 ^ 64 - 1) n
      let backConverted := natCastF64 converted
      if F64.ieeeEq backConverted n then some converted else none

/-- `utils::f64_to_u128_no_sig_lossless`: convert `f64` to `u128` losslessly,
ignoring the sign bit. -/
def f64_to_u128_no_sig_lossless (n : F64) : Option ℕ :=
  if n.isInfinite || n.isNan then none
  else
    let n := n.abs
    -- u128::MAX as f64 rounds up to 2^128
    if F64.ieeeLe (natCastF64 (2 ^ 128 - 1)) n then none
    else
      let converted := f64CastNat (2 ^ 128 - 1) n
      let backConverted := natCastF64 converted
      if F64.ieeeEq backConverted n then some converted else none

/-- `utils::f64_to_f32_lossless`: convert `f64` to `f32` losslessly (the
round-trip `n as f32 as f64` must reproduce the bit pattern of `n`; bit
patterns are modelled by structural equality of `F64`). -/
def f64_to_f32_lossless (n : F64) : Option F64 :=
  let converted := f64CastF32 n
  if converted = n then some converted else none

/-- `utils::u64_to_f64_lossless`: convert `u64` to `f64` losslessly. -/
def u64_to_f64_lossless (n : ℕ) : Option F64 :=
  let converted := natCastF64 (n % 2 ^ 64)
  let backConverted := f64CastNat (2 ^ 64 - 1) converted
  if backConverted = n % 2 ^ 64 then some converted else none

/-- `utils::u64_to_f32_lossless`: convert `u64` to `f32` losslessly. -/
def u64_to_f32_lossless (n : ℕ) : Option F64 :=
  let converted := natCastF32 (n % 2 ^ 64)
  let backConverted := f64CastNat (2 ^ 64 - 1) converted
  if backConverted = n % 2 ^ 64 then some converted else none

/-- `utils::from_inf` at a signed integer target with range `[lo, hi]`:
negative infinity maps to `T::MIN`, positive infinity to `T::MAX`. -/
def fromInfInt (lo hi : ℤ) (negative : Bool) : ℤ := if negative then lo else hi

/-- `utils::from_inf` at an unsigned integer target with maximum `hi`. -/
def fromInfNat (hi : ℕ) (negative : Bool) : ℕ := if negative then 0 else hi

/-- `utils::from_inf` at a float target: the corresponding infinity. -/
def fromInfF (negative : Bool) : F64 := .inf negative

/-- `utils::neg_i65_to_i128`: sign-extend a negative i65 stored as a `u64`
(offset encoding) to `i128`; `repr as i128 | I128_HIGH_64_BITS` evaluates to
`repr - 2^64` as a signed value. -/
def neg_i65_to_i128 (repr : ℕ) : ℤ := (repr % 2 ^ 64 : ℤ) - 2 ^ 64

/-! ## `number.rs`: the `Number` enum -/

/-- The Twic `Number` enum: a positive integer in `[0, 2^64 - 1]`, a negative
integer stored with offset `-2^64` (`negInt 0` is `-2^64`, `negInt (2^64 - 1)`
is `-1`), a finite float, NaN, or a signed infinity. -/
inductive Number where
  | posInt (n : ℕ)
  | negInt (n : ℕ)
  | float (f : F64)
  | nan
  | inf (negative : Bool)
deriving DecidableEq

namespace Number

/-- `Number::is_integer`. -/
def is_integer : Number → Bool
  | .posInt _ | .negInt _ => true
  | _ => false

/-- `Number::is_float`. -/
def is_float : Number → Bool
  | .float _ => true
  | _ => false

/-- `Number::is_nan`. -/
def is_nan : Number → Bool
  | .nan => true
  | _ => false

/-- `Number::is_infinite`. -/
def is_infinite : Number → Bool
  | .inf _ => true
  | _ => false

/-- `Number::fits_in_i64`: integer and within `[i64::MIN, i64::MAX]`; the
`NegInt` guard `*n >= i64::MIN as u64` compares against the two's-complement
bits of `i64::MIN`, which are `2^63`. -/
def fits_in_i64 : Number → Bool
  | .posInt n => decide (n ≤ 2 ^ 63 - 1)
  | .negInt n => decide (2 ^ 63 ≤ n)
  | _ => false

/-- `Number::fits_in_u64`: exactly the positive-integer variant. -/
def fits_in_u64 : Number → Bool
  | .posInt _ => true
  | _ => false

/-! ### `get_<type>` methods (same-domain narrowing) -/

/-- `Number::get_i8`. -/
def get_i8 : Number → Option ℤ
  | .posInt n => if n ≤ 2 ^ 7 - 1 then some (wrapI 8 n) else none
  | .negInt n => if 2 ^ 64 - 2 ^ 7 ≤ n then some (wrapI 8 n) else none
  | _ => none

/-- `Number::get_i16`. -/
def get_i16 : Number → Option ℤ
  | .posInt n => if n ≤ 2 ^ 15 - 1 then some (wrapI 16 n) else none
  | .negInt n => if 2 ^ 64 - 2 ^ 15 ≤ n then some (wrapI 16 n) else none
  | _ => none

/-- `Number::get_i32`. -/
def get_i32 : Number → Option ℤ
  | .posInt n => if n ≤ 2 ^ 31 - 1 then some (wrapI 32 n) else none
  | .negInt n => if 2 ^ 64 - 2 ^ 31 ≤ n then some (wrapI 32 n) else none
  | _ => none

/-- `Number::get_i64`. -/
def get_i64 : Number → Option ℤ
  | .posInt n => if n ≤ 2 ^ 63 - 1 then some (wrapI 64 n) else none
  | .negInt n => if 2 ^ 63 ≤ n then some (wrapI 64 n) else none
  | _ => none

/-- `Number::get_isize` (64-bit target: identical bounds to `get_i64`). -/
def get_isize : Number → Option ℤ
  | .posInt n => if n ≤ 2 ^ 63 - 1 then some (wrapI 64 n) else none
  | .negInt n => if 2 ^ 63 ≤ n then some (wrapI 64 n) else none
  | _ => none

/-- `Number::get_i128`: every integer `Number` fits. -/
def get_i128 : Number → Option ℤ
  | .posInt n => some (n % 2 ^ 64 : ℤ)
  | .negInt n => some (neg_i65_to_i128 n)
  | _ => none

/-- `Number::get_u8`. -/
def get_u8 : Number → Option ℕ
  | .posInt n => if n ≤ 2 ^ 8 - 1 then some (n % 2 ^ 8) else none
  | _ => none

/-- `Number::get_u16`. -/
def get_u16 : Number → Option ℕ
  | .posInt n => if n ≤ 2 ^ 16 - 1 then some (n % 2 ^ 16) else none
  | _ => none

/-- `Number::get_u32`. -/
def get_u32 : Number → Option ℕ
  | .posInt n => if n ≤ 2 ^ 32 - 1 then some (n % 2 ^ 32) else none
  | _ => none

/-- `Number::get_u64`. -/
def get_u64 : Number → Option ℕ
  | .posInt n => some (n % 2 ^ 64)
  | _ => none

/-- `Number::get_usize` (64-bit target). -/
def get_usize : Number → Option ℕ
  | .posInt n => if n ≤ 2 ^ 64 - 1 then some (n % 2 ^ 64) else none
  | _ => none

/-- `Number::get_u128`. -/
def get_u128 : Number → Option ℕ
  | .posInt n => some (n % 2 ^ 64)
  | _ => none

/-! ### `as_<type>_exact` methods (cross-domain lossless conversion) -/

/-- `Number::as_i8_exact`. -/
def as_i8_exact : Number → Option ℤ
  | .posInt n => if n ≤ 2 ^ 7 - 1 then some (wrapI 8 n) else none
  | .negInt n => if 2 ^ 64 - 2 ^ 7 ≤ n then some (wrapI 8 n) else none
  | .float f =>
    match f64_to_u64_no_sig_lossless f with
    | none => none
    | some int =>
      if f.isSignPositive then
        if int ≤ 2 ^ 7 - 1 then some (wrapI 8 int) else none
      else if int ≤ 2 ^ 7 then some (wrapI 8 (-(wrapI 8 int))) else none
  | _ => none

/-- `Number::as_i16_exact`. -/
def as_i16_exact : Number → Option ℤ
  | .posInt n => if n ≤ 2 ^ 15 - 1 then some (wrapI 16 n) else none
  | .negInt n => if 2 ^ 64 - 2 ^ 15 ≤ n then some (wrapI 16 n) else none
  | .float f =>
    match f64_to_u64_no_sig_lossless f with
    | none => none
    | some int =>
      if f.isSignPositive then
        if int ≤ 2 ^ 15 - 1 then some (wrapI 16 int) else none
      else if int ≤ 2 ^ 15 then some (wrapI 16 (-(wrapI 16 int))) else none
  | _ => none

/-- `Number::as_i32_exact`. -/
def as_i32_exact : Number → Option ℤ
  | .posInt n => if n ≤ 2 ^ 31 - 1 then some (wrapI 32 n) else none
  | .negInt n => if 2 ^ 64 - 2 ^ 31 ≤ n then some (wrapI 32 n) else none
  | .float f =>
    match f64_to_u64_no_sig_lossless f with
    | none => none
    | some int =>
      if f.isSignPositive then
        if int ≤ 2 ^ 31 - 1 then some (wrapI 32 int) else none
      else if int ≤ 2 ^ 31 then some (wrapI 32 (-(wrapI 32 int))) else none
  | _ => none

/-- `Number::as_i64_exact`. -/
def as_i64_exact : Number → Option ℤ
  | .posInt n => if n ≤ 2 ^ 63 - 1 then some (wrapI 64 n) else none
  | .negInt n => if 2 ^ 63 ≤ n then some (wrapI 64 n) else none
  | .float f =>
    match f64_to_u64_no_sig_lossless f with
    | none => none
    | some int =>
      if f.isSignPositive then
        if int ≤ 2 ^ 63 - 1 then some (wrapI 64 int) else none
      else if int ≤ 2 ^ 63 then some (wrapI 64 (-(wrapI 64 int))) else none
  | _ => none

/-- `Number::as_isize_exact` (64-bit target). -/
def as_isize_exact : Number → Option ℤ
  | .posInt n => if n ≤ 2 ^ 63 - 1 then some (wrapI 64 n) else none
  | .negInt n => if 2 ^ 63 ≤ n then some (wrapI 64 n) else none
  | .float f =>
    match f64_to_u64_no_sig_lossless f with
    | none => none
    | some int =>
      if f.isSignPositive then
        if int ≤ 2 ^ 63 - 1 then some (wrapI 64 int) else none
      else if int ≤ 2 ^ 63 then some (wrapI 64 (-(wrapI 64 int))) else none
  | _ => none

/-- `Number::as_i128_exact`. -/
def as_i128_exact : Number → Option ℤ
  | .posInt n => some (n % 2 ^ 64 : ℤ)
  | .negInt n => some (neg_i65_to_i128 n)
  | .float f =>
    match f64_to_u128_no_sig_lossless f with
    | none => none
    | some int =>
      if f.isSignPositive && int ≤ 2 ^ 127 - 1 then some (wrapI 128 int)
      else if f.isSignNegative && int ≤ 2 ^ 127 then some (wrapI 128 (-(wrapI 128 int)))
      else none
  | _ => none

/-- `Number::as_u8_exact`. -/
def as_u8_exact : Number → Option ℕ
  | .posInt n => if n ≤ 2 ^ 8 - 1 then some (n % 2 ^ 8) else none
  | .float f =>
    match f64_to_u64_no_sig_lossless f with
    | none => none
    | some int =>
      if f.isSignPositive && int ≤ 2 ^ 8 - 1 then some (int % 2 ^ 8)
      else if int = 0 then some 0  -- -0.0 case
      else none
  | _ => none

/-- `Number::as_u16_exact`. -/
def as_u16_exact : Number → Option ℕ
  | .posInt n => if n ≤ 2 ^ 16 - 1 then some (n % 2 ^ 16) else none
  | .float f =>
    match f64_to_u64_no_sig_lossless f with
    | none => none
    | some int =>
      if f.isSignPositive && int ≤ 2 ^ 16 - 1 then some (int % 2 ^ 16)
      else if int = 0 then some 0  -- -0.0 case
      else none
  | _ => none

/-- `Number::as_u32_exact`. -/
def as_u32_exact : Number → Option ℕ
  | .posInt n => if n ≤ 2 ^ 32 - 1 then some (n % 2 ^ 32) else none
  | .float f =>
    match f64_to_u64_no_sig_lossless f with
    | none => none
    | some int =>
      if f.isSignPositive && int ≤ 2 ^ 32 - 1 then some (int % 2 ^ 32)
      else if int = 0 then some 0  -- -0.0 case
      else none
  | _ => none

/-- `Number::as_u64_exact`. -/
def as_u64_exact : Number → Option ℕ
  | .posInt n => some (n % 2 ^ 64)
  | .float f =>
    match f64_to_u64_no_sig_lossless f with
    | none => none
    | some int =>
      if f.isSignPositive then some int
      else if int = 0 then some 0  -- -0.0 case
      else none
  | _ => none

/-- `Number::as_usize_exact` (64-bit target). -/
def as_usize_exact : Number → Option ℕ
  | .posInt n => if n ≤ 2 ^ 64 - 1 then some (n % 2 ^ 64) else none
  | .float f =>
    match f64_to_u64_no_sig_lossless f with
    | none => none
    | some int =>
      if f.isSignPositive && int ≤ 2 ^ 64 - 1 then some int
      else if int = 0 then some 0  -- -0.0 case
      else none
  | _ => none

/-- `Number::as_u128_exact`. -/
def as_u128_exact : Number → Option ℕ
  | .posInt n => some (n % 2 ^ 64)
  | .float f =>
    match f64_to_u128_no_sig_lossless f with
    | none => none
    | some int =>
      if f.isSignPositive then some int
      else if int = 0 then some 0  -- -0.0 case
      else none
  | _ => none

/-- `Number::as_f32_exact`: NaN maps to `f32::NAN`, infinities map to the
`f32` infinities, integers and floats convert only when lossless. -/
def as_f32_exact : Number → Option F64
  | .posInt n => u64_to_f32_lossless n
  | .negInt n =>
    if n % 2 ^ 64 = 0 then some (F64.finite true (2 ^ 64))  -- -TWO_POW_64_F32
    else (u64_to_f32_lossless ((2 ^ 64 - 1) - n % 2 ^ 64 + 1)).map F64.neg
  | .float f => f64_to_f32_lossless f
  | .nan => some .nan
  | .inf negative => some (fromInfF negative)

/-- `Number::as_f64_exact`: NaN maps to `f64::NAN`, infinities map to the
`f64` infinities, floats convert exactly, integers only when lossless. -/
def as_f64_exact : Number → Option F64
  | .posInt n => u64_to_f64_lossless n
  | .negInt n =>
    if n % 2 ^ 64 = 0 then some (F64.finite true (2 ^ 64))  -- -TWO_POW_64_F64
    else (u64_to_f64_lossless ((2 ^ 64 - 1) - n % 2 ^ 64 + 1)).map F64.neg
  | .float f => some f
  | .nan => some .nan
  | .inf negative => some (fromInfF negative)

/-! ### `as_<type>` methods (total lossy conversion, Rust `as` cast rules) -/

/-- `Number::as_i8`: integers truncate to the low 8 bits of the payload,
floats saturate, NaN casts to `0`, infinities to `i8::MIN`/`i8::MAX`. -/
def as_i8 : Number → ℤ
  | .posInt n | .negInt n => wrapI 8 n
  | .float f => f64CastInt (-(2 ^ 7)) (2 ^ 7 - 1) f
  | .nan => 0
  | .inf negative => fromInfInt (-(2 ^ 7)) (2 ^ 7 - 1) negative

/-- `Number::as_i16`. -/
def as_i16 : Number → ℤ
  | .posInt n | .negInt n => wrapI 16 n
  | .float f => f64CastInt (-(2 ^ 15)) (2 ^ 15 - 1) f
  | .nan => 0
  | .inf negative => fromInfInt (-(2 ^ 15)) (2 ^ 15 - 1) negative

/-- `Number::as_i32`. -/
def as_i32 : Number → ℤ
  | .posInt n | .negInt n => wrapI 32 n
  | .float f => f64CastInt (-(2 ^ 31)) (2 ^ 31 - 1) f
  | .nan => 0
  | .inf negative => fromInfInt (-(2 ^ 31)) (2 ^ 31 - 1) negative

/-- `Number::as_i64`. -/
def as_i64 : Number → ℤ
  | .posInt n | .negInt n => wrapI 64 n
  | .float f => f64CastInt (-(2 ^ 63)) (2 ^ 63 - 1) f
  | .nan => 0
  | .inf negative => fromInfInt (-(2 ^ 63)) (2 ^ 63 - 1) negative

/-- `Number::as_isize` (64-bit target). -/
def as_isize : Number → ℤ
  | .posInt n | .negInt n => wrapI 64 n
  | .float f => f64CastInt (-(2 ^ 63)) (2 ^ 63 - 1) f
  | .nan => 0
  | .inf negative => fromInfInt (-(2 ^ 63)) (2 ^ 63 - 1) negative

/-- `Number::as_i128`: `PosInt` widens, `NegInt` sign-extends through
`neg_i65_to_i128`. -/
def as_i128 : Number → ℤ
  | .posInt n => (n % 2 ^ 64 : ℤ)
  | .negInt n => neg_i65_to_i128 n
  | .float f => f64CastInt (-(2 ^ 127)) (2 ^ 127 - 1) f
  | .nan => 0
  | .inf negative => fromInfInt (-(2 ^ 127)) (2 ^ 127 - 1) negative

/-- `Number::as_u8`. -/
def as_u8 : Number → ℕ
  | .posInt n | .negInt n => n % 2 ^ 8
  | .float f => f64CastNat (2 ^ 8 - 1) f
  | .nan => 0
  | .inf negative => fromInfNat (2 ^ 8 - 1) negative

/-- `Number::as_u16`. -/
def as_u16 : Number → ℕ
  | .posInt n | .negInt n => n % 2 ^ 16
  | .float f => f64CastNat (2 ^ 16 - 1) f
  | .nan => 0
  | .inf negative => fromInfNat (2 ^ 16 - 1) negative

/-- `Number::as_u32`. -/
def as_u32 : Number → ℕ
  | .posInt n | .negInt n => n % 2 ^ 32
  | .float f => f64CastNat (2 ^ 32 - 1) f
  | .nan => 0
  | .inf negative => fromInfNat (2 ^ 32 - 1) negative

/-- `Number::as_u64`. -/
def as_u64 : Number → ℕ
  | .posInt n | .negInt n => n % 2 ^ 64
  | .float f => f64CastNat (2 ^ 64 - 1) f
  | .nan => 0
  | .inf negative => fromInfNat (2 ^ 64 - 1) negative

/-- `Number::as_usize` (64-bit target). -/
def as_usize : Number → ℕ
  | .posInt n | .negInt n => n % 2 ^ 64
  | .float f => f64CastNat (2 ^ 64 - 1) f
  | .nan => 0
  | .inf negative => fromInfNat (2 ^ 64 - 1) negative

/-- `Number::as_u128`: `NegInt` goes through `neg_i65_to_i128` and then the
two's-complement reinterpretation `as u128`. -/
def as_u128 : Number → ℕ
  | .posInt n => n % 2 ^ 64
  | .negInt n => (neg_i65_to_i128 n % 2 ^ 128).toNat
  | .float f => f64CastNat (2 ^ 128 - 1) f
  | .nan => 0
  | .inf negative => fromInfNat (2 ^ 128 - 1) negative

/-- `Number::as_f32`. -/
def as_f32 : Number → F64
  | .posInt n => natCastF32 (n % 2 ^ 64)
  | .negInt n => intCastF32 (neg_i65_to_i128 n)
  | .float f => f64CastF32 f
  | .nan => .nan
  | .inf negative => fromInfF negative

/-- `Number::as_f64`. -/
def as_f64 : Number → F64
  | .posInt n => natCastF64 (n % 2 ^ 64)
  | .negInt n => intCastF64 (neg_i65_to_i128 n)
  | .float f => f
  | .nan => .nan
  | .inf negative => fromInfF negative

/-! ### `number/impls.rs`: `From`, `PartialEq`, `Hash` -/

/-- The macro-generated `impl From<signed integer> for Number`: non-negative
values become `PosInt`, negative values store their 64-bit two's-complement
bits (`value as u64`, i.e. `v + 2^64`) in `NegInt`. -/
def fromInt (v : ℤ) : Number :=
  if 0 ≤ v then .posInt v.toNat else .negInt (v + 2 ^ 64).toNat

/-- The macro-generated `impl From<unsigned integer> for Number`. -/
def fromNat (v : ℕ) : Number := .posInt (v % 2 ^ 64)

/-- `impl From<f64> for Number`: NaN and infinities are routed to their
dedicated variants; finite values are stored as `Float`. -/
def fromF64 (value : F64) : Number :=
  if value.isNan then .nan
  else if value.isInfinite then .inf value.isSignNegative
  else .float value

/-- `impl From<f32> for Number`: the value is widened to `f64` (exact; the
widening is the identity on the model) and dispatched as in `From<f64>`. -/
def fromF32 (value : F64) : Number :=
  let value_f64 := value
  if value_f64.isNan then .nan
  else if value_f64.isInfinite then .inf value_f64.isSignNegative
  else .float value_f64

/-- `impl PartialEq for Number`: structural per variant (floats via IEEE
`==`), `NaN == NaN` is true, cross-variant comparisons are false. -/
def beqNumber : Number → Number → Bool
  | .posInt a, .posInt b => a == b
  | .negInt a, .negInt b => a == b
  | .float a, .float b => F64.ieeeEq a b
  | .nan, .nan => true
  | .inf a, .inf b => a == b
  | _, _ => false

/-- The data fed to the hasher by `impl Hash for Number`: `PosInt`/`NegInt`
feed the payload `u64`; `Float` feeds the bit pattern, with both zeros folded
to the bits of `+0.0`; `NaN` feeds the bits of `f64::NAN`; infinities feed the
bits of the matching infinity.  Bit patterns are modelled by the `F64` value
itself (sign and magnitude determine the bits of a finite double). -/
def hashInput : Number → ℕ ⊕ F64
  | .posInt n | .negInt n => .inl (n % 2 ^ 64)
  | .float f =>
    if F64.ieeeEq f (F64.finite false 0) then .inr (F64.finite false 0)
    else .inr f
  | .nan => .inr .nan
  | .inf negative => .inr (.inf negative)

/-! ### `number/impls.rs`: mixed-type `PartialEq<primitive> for Number`

Each instance is `self.as_<T>_exact() == Some(*other)`; for float targets the
`Option<f32>`/`Option<f64>` comparison uses IEEE `==` on the payloads. -/

/-- `impl PartialEq<i8> for Number`. -/
def eqPrimI8 (n : Number) (other : ℤ) : Bool := n.as_i8_exact == some other

/-- `impl PartialEq<i16> for Number`. -/
def eqPrimI16 (n : Number) (other : ℤ) : Bool := n.as_i16_exact == some other

/-- `impl PartialEq<i32> for Number`. -/
def eqPrimI32 (n : Number) (other : ℤ) : Bool := n.as_i32_exact == some other

/-- `impl PartialEq<i64> for Number`. -/
def eqPrimI64 (n : Number) (other : ℤ) : Bool := n.as_i64_exact == some other

/-- `impl PartialEq<isize> for Number`. -/
def eqPrimIsize (n : Number) (other : ℤ) : Bool := n.as_isize_exact == some other

/-- `impl PartialEq<i128> for Number`. -/
def eqPrimI128 (n : Number) (other : ℤ) : Bool := n.as_i128_exact == some other

/-- `impl PartialEq<u8> for Number`. -/
def eqPrimU8 (n : Number) (other : ℕ) : Bool := n.as_u8_exact == some other

/-- `impl PartialEq<u16> for Number`. -/
def eqPrimU16 (n : Number) (other : ℕ) : Bool := n.as_u16_exact == some other

/-- `impl PartialEq<u32> for Number`. -/
def eqPrimU32 (n : Number) (other : ℕ) : Bool := n.as_u32_exact == some other

/-- `impl PartialEq<u64> for Number`. -/
def eqPrimU64 (n : Number) (other : ℕ) : Bool := n.as_u64_exact == some other

/-- `impl PartialEq<usize> for Number`. -/
def eqPrimUsize (n : Number) (other : ℕ) : Bool := n.as_usize_exact == some other

/-- `impl PartialEq<u128> for Number`. -/
def eqPrimU128 (n : Number) (other : ℕ) : Bool := n.as_u128_exact == some other

/-- `impl PartialEq<f32> for Number`: `Option<f32>` equality compares the
payloads with IEEE `==`. -/
def eqPrimF32 (n : Number) (other : F64) : Bool :=
  match n.as_f32_exact with
  | some x => F64.ieeeEq x other
  | none => false

/-- `impl PartialEq<f64> for Number`. -/
def eqPrimF64 (n : Number) (other : F64) : Bool :=
  match n.as_f64_exact with
  | some x => F64.ieeeEq x other
  | none => false

end Number

/-! ## `value.rs`, `value/map.rs`: the `Value` enum

`Map` (`BTreeMap<String, Value>`) is modelled as an association list kept
sorted by key with unique keys. -/

/-- The Twic `Value` enum. -/
inductive Value where
  | null
  | boolean (b : Bool)
  | number (n : Number)
  | string (s : String)
  | vector (elems : List Value)
  | map (entries : List (String × Value))

namespace Value

/-- `Value::is_vector`. -/
def is_vector : Value → Bool
  | .vector _ => true
  | _ => false

/-- `Value::is_map`. -/
def is_map : Value → Bool
  | .map _ => true
  | _ => false

end Value

/-- `BTreeMap::get`: look up a key. -/
def mapGet (k : String) : List (String × Value) → Option Value
  | [] => none
  | (k', v) :: rest => if k = k' then some v else mapGet k rest

/-- `BTreeMap::entry(k).or_insert(Value::Null)`: the map after making sure
`k` is bound, inserting `Null` at the sorted position when `k` is absent. -/
def mapEntryOrInsertNull (k : String) : List (String × Value) → List (String × Value)
  | [] => [(k, Value.null)]
  | (k', v) :: rest =>
    if k = k' then (k', v) :: rest
    else if k < k' then (k, Value.null) :: (k', v) :: rest
    else (k', v) :: mapEntryOrInsertNull k rest

/-- Writing through a mutable reference to the value bound to `k`. -/
def mapSet (k : String) (x : Value) : List (String × Value) → List (String × Value)
  | [] => []
  | (k', v) :: rest =>
    if k = k' then (k', x) :: rest else (k', v) :: mapSet k x rest

/-! ## `value/index.rs`: the indexing API -/

/-- `ValueIndexError`: the three-way indexing error. -/
inductive ValueIndexError where
  | notIndexable
  | incompatibleIndexType
  | keyNotFound
deriving DecidableEq

/-- The two index kinds the `IndexInto` trait is implemented for: a vector
position (`usize`) or a map key (`str`/`String`). -/
inductive Index where
  | position (i : ℕ)
  | key (k : String)

/-- `<usize as IndexInto>::index_into`. -/
def usizeIndexInto (i : ℕ) (value : Value) : Except ValueIndexError Value :=
  match value with
  | .vector vec =>
    match vec.get? i with
    | some x => .ok x
    | none => .error .keyNotFound
  | v => if v.is_map then .error .incompatibleIndexType else .error .notIndexable

/-- `<usize as IndexInto>::index_into_mut`: same dispatch as `index_into`;
the mutable borrow is modelled by the element it focuses. -/
def usizeIndexIntoMut (i : ℕ) (value : Value) : Except ValueIndexError Value :=
  match value with
  | .vector vec =>
    match vec.get? i with
    | some x => .ok x
    | none => .error .keyNotFound
  | v => if v.is_map then .error .incompatibleIndexType else .error .notIndexable

/-- `<usize as IndexInto>::index_into_or_insert`: out-of-bounds positions
extend the vector with `Null` up to and including `i`; the result is the
container after the extension (the returned `&mut` focuses slot `i`). -/
def usizeIndexIntoOrInsert (i : ℕ) (value : Value) : Except ValueIndexError Value :=
  match value with
  | .vector vec =>
    .ok (.vector (if vec.length ≤ i
      then vec ++ List.replicate (i - vec.length + 1) Value.null
      else vec))
  | v => if v.is_map then .error .incompatibleIndexType else .error .notIndexable

/-- `<str as IndexInto>::index_into`. -/
def strIndexInto (k : String) (value : Value) : Except ValueIndexError Value :=
  match value with
  | .map m =>
    match mapGet k m with
    | some x => .ok x
    | none => .error .keyNotFound
  | v => if v.is_vector then .error .incompatibleIndexType else .error .notIndexable

/-- `<str as IndexInto>::index_into_mut`. -/
def strIndexIntoMut (k : String) (value : Value) : Except ValueIndexError Value :=
  match value with
  | .map m =>
    match mapGet k m with
    | some x => .ok x
    | none => .error .keyNotFound
  | v => if v.is_vector then .error .incompatibleIndexType else .error .notIndexable

/-- `<str as IndexInto>::index_into_or_insert`: an absent key is inserted
with a `Null` placeholder; the result is the container after the insertion
(the returned `&mut` focuses the value bound to `k`). -/
def strIndexIntoOrInsert (k : String) (value : Value) : Except ValueIndexError Value :=
  match value with
  | .map m => .ok (.map (mapEntryOrInsertNull k m))
  | v => if v.is_vector then .error .incompatibleIndexType else .error .notIndexable

/-- Dispatch of `index_into` over the two index kinds. -/
def indexInto : Index → Value → Except ValueIndexError Value
  | .position i, v => usizeIndexInto i v
  | .key k, v => strIndexInto k v

/-- Dispatch of `index_into_mut` over the two index kinds. -/
def indexIntoMut : Index → Value → Except ValueIndexError Value
  | .position i, v => usizeIndexIntoMut i v
  | .key k, v => strIndexIntoMut k v

/-- Dispatch of `index_into_or_insert` over the two index kinds. -/
def indexIntoOrInsert : Index → Value → Except ValueIndexError Value
  | .position i, v => usizeIndexIntoOrInsert i v
  | .key k, v => strIndexIntoOrInsert k v

namespace Value

/-- `Value::get`: `index.index_into(self).ok()`. -/
def get (index : Index) (v : Value) : Option Value := (indexInto index v).toOption

/-- `Value::get_mut`: `index.index_into_mut(self).ok()`. -/
def get_mut (index : Index) (v : Value) : Option Value :=
  (indexIntoMut index v).toOption

/-- `Value::get_or_insert`: `index.index_into_or_insert(self).ok()`; the
payload is the container after any insertion, with the borrow focused as in
`indexIntoOrInsert`. -/
def get_or_insert (index : Index) (v : Value) : Option Value :=
  (indexIntoOrInsert index v).toOption

end Value

/-- Reading through the mutable reference returned by
`index_into_or_insert`: the element at the focused slot of the updated
container. -/
def readFocus (index : Index) (updated : Value) : Option Value :=
  match index, updated with
  | .position i, .vector vec => vec.get? i
  | .key k, .map m => mapGet k m
  | _, _ => none

/-- Writing through the mutable reference returned by
`index_into_or_insert`. -/
def writeFocus (index : Index) (x : Value) (updated : Value) : Value :=
  match index, updated with
  | .position i, .vector vec => .vector (vec.set i x)
  | .key k, .map m => .map (mapSet k x m)
  | _, v => v

/-- `<Value as core::ops::Index>::index`: `KeyNotFound` is converted into a
borrowed `Null`; the other two errors panic (modelled by `none`). -/
def opIndex (index : Index) (v : Value) : Option Value :=
  match indexInto index v with
  | .ok value => some value
  | .error .notIndexable => none
  | .error .incompatibleIndexType => none
  | .error .keyNotFound => some .null

/-- `<Value as core::ops::IndexMut>::index_mut`: inserts/extends through
`index_into_or_insert` and returns the updated container with the borrow
focused at `index`; `NotIndexable`/`IncompatibleIndexType` panic (modelled by
`none`), and `KeyNotFound` is `unreachable!` (also a panic). -/
def opIndexMut (index : Index) (v : Value) : Option Value :=
  match indexIntoOrInsert index v with
  | .ok updated => some updated
  | .error .notIndexable => none
  | .error .incompatibleIndexType => none
  | .error .keyNotFound => none

/-- The whole write-indexing statement `v[index] = x`: `index_mut` followed
by an assignment through the returned reference. -/
def opIndexAssign (index : Index) (x : Value) (v : Value) : Option Value :=
  (opIndexMut index v).map (writeFocus index x)

/-! ## Specification-side definitions

`specReadOutcome` restates the spec's three-way error taxonomy (§4.2/§7 of
the specification document) for read access, to be compared with the
implementation's `index_into`/`index_into_mut`: a scalar target is
`NotIndexable`; a container indexed with the wrong index kind is
`IncompatibleIndexType`; a matching container with an absent key or
out-of-bounds position is `KeyNotFound`; otherwise the entry is returned. -/
def specReadOutcome (index : Index) (v : Value) : Except ValueIndexError Value :=
  match v, index with
  | .vector vec, .position i =>
    match vec.get? i with
    | some x => .ok x
    | none => .error .keyNotFound
  | .vector _, .key _ => .error .incompatibleIndexType
  | .map m, .key k =>
    match mapGet k m with
    | some x => .ok x
    | none => .error .keyNotFound
  | .map _, .position _ => .error .incompatibleIndexType
  | _, _ => .error .notIndexable

end Twic

namespace Twic

/-! ## Claim theorems -/

/-- **C1, counterexample.**  The claim says every `as_<T>_exact` conversion
returns `None` on NaN, for every target type including `f64`; but
`Number::NaN.as_f64_exact()` is `Some(f64::NAN)`. -/
theorem nan_as_f64_exact_is_some : Number.as_f64_exact Number.nan ≠ none := by
  decide

/-- **C1 (amended).**  For every NaN or infinite `Number`, every `as_<T>_exact`
conversion to an *integer* target returns `None`; the float targets `f32` and
`f64` instead return `Some` of the corresponding NaN or infinity. -/
theorem nan_inf_as_exact_conversions :
    (Number.as_i8_exact Number.nan = none ∧ Number.as_i16_exact Number.nan = none ∧
      Number.as_i32_exact Number.nan = none ∧ Number.as_i64_exact Number.nan = none ∧
      Number.as_isize_exact Number.nan = none ∧ Number.as_i128_exact Number.nan = none ∧
      Number.as_u8_exact Number.nan = none ∧ Number.as_u16_exact Number.nan = none ∧
      Number.as_u32_exact Number.nan = none ∧ Number.as_u64_exact Number.nan = none ∧
      Number.as_usize_exact Number.nan = none ∧ Number.as_u128_exact Number.nan = none) ∧
    (∀ b : Bool,
      Number.as_i8_exact (Number.inf b) = none ∧ Number.as_i16_exact (Number.inf b) = none ∧
      Number.as_i32_exact (Number.inf b) = none ∧ Number.as_i64_exact (Number.inf b) = none ∧
      Number.as_isize_exact (Number.inf b) = none ∧
      Number.as_i128_exact (Number.inf b) = none ∧
      Number.as_u8_exact (Number.inf b) = none ∧ Number.as_u16_exact (Number.inf b) = none ∧
      Number.as_u32_exact (Number.inf b) = none ∧ Number.as_u64_exact (Number.inf b) = none ∧
      Number.as_usize_exact (Number.inf b) = none ∧
      Number.as_u128_exact (Number.inf b) = none) ∧
    (Number.as_f32_exact Number.nan = some F64.nan ∧
      Number.as_f64_exact Number.nan = some F64.nan) ∧
    (∀ b : Bool,
      Number.as_f32_exact (Number.inf b) = some (F64.inf b) ∧
      Number.as_f64_exact (Number.inf b) = some (F64.inf b)) := by
  decide

/-- **C3.**  `Number` represents and decodes the 65-bit extremes: `NegInt 0`
is `-2^64` and `PosInt (2^64 - 1)` is `2^64 - 1`; `fits_in_i64` accepts
`i64::MAX`/`i64::MIN` but rejects the values one past them
(`PosInt (i64::MAX as u64 + 1)` and `NegInt (i64::MIN as u64 - 1)`); and no
`NegInt` ever fits in `u64`. -/
theorem number_boundary_arithmetic :
    (Number.get_i128 (Number.negInt 0) = some (-(2 ^ 64)) ∧
      Number.as_i128_exact (Number.negInt 0) = some (-(2 ^ 64)) ∧
      Number.get_u64 (Number.posInt (2 ^ 64 - 1)) = some (2 ^ 64 - 1) ∧
      Number.get_i128 (Number.posInt (2 ^ 64 - 1)) = some (2 ^ 64 - 1)) ∧
    (Number.fits_in_i64 (Number.posInt (2 ^ 63 - 1)) = true ∧
      Number.fits_in_i64 (Number.posInt (2 ^ 63)) = false ∧
      Number.fits_in_i64 (Number.negInt (2 ^ 63)) = true ∧
      Number.fits_in_i64 (Number.negInt (2 ^ 63 - 1)) = false) ∧
    (∀ n : ℕ, Number.fits_in_u64 (Number.negInt n) = false) := by
  refine ⟨by decide, by decide, fun n => rfl⟩

/-- **C6.**  `Number`-to-`Number` equality never crosses the integer/float
domain boundary: an integer-variant `Number` never equals a `Float`-variant
`Number`, and in particular `Number::from(1i64) != Number::from(1.0f64)`. -/
theorem number_eq_domain_separation :
    (∀ (n : ℕ) (f : F64),
      Number.beqNumber (Number.posInt n) (Number.float f) = false ∧
      Number.beqNumber (Number.negInt n) (Number.float f) = false ∧
      Number.beqNumber (Number.float f) (Number.posInt n) = false ∧
      Number.beqNumber (Number.float f) (Number.negInt n) = false) ∧
    Number.beqNumber (Number.fromInt 1) (Number.fromF64 (F64.finite false 1)) = false := by
  exact ⟨fun n f => ⟨rfl, rfl, rfl, rfl⟩, by decide⟩

/-- Two finite doubles that compare IEEE-equal and are not zero are the same
double (same sign bit and magnitude, hence the same bit pattern). -/
lemma ieeeEq_finite_inj (s1 s2 : Bool) (m1 m2 : ℚ≥0)
    (h : F64.ieeeEq (F64.finite s1 m1) (F64.finite s2 m2) = true)
    (hz : ¬ F64.ieeeEq (F64.finite s1 m1) (F64.finite false 0) = true) :
    F64.finite s1 m1 = F64.finite s2 m2 := by
  simp only [F64.ieeeEq, F64.val, decide_eq_true_eq] at h hz
  have h1 := NNRat.coe_nonneg m1
  have h2 := NNRat.coe_nonneg m2
  cases s1 <;> cases s2 <;>
    simp only [Bool.false_eq_true, if_false, if_true, NNRat.coe_zero] at h hz
  · have hm : m1 = m2 := NNRat.coe_inj.mp h
    rw [hm]
  · exact absurd (by linarith : (m1 : ℚ) = 0) hz
  · exact absurd (by linarith : -(m1 : ℚ) = 0) hz
  · have hm : m1 = m2 := NNRat.coe_inj.mp (neg_inj.mp h)
    rw [hm]

/-- **C5.**  `Number::NaN == Number::NaN`, `Number::from(+0.0) ==
Number::from(-0.0)`, the two zeros hash identically, and hashing is
consistent with equality: equal `Number`s feed identical data to the
hasher. -/
theorem number_eq_hash_consistent :
    Number.beqNumber Number.nan Number.nan = true ∧
    Number.beqNumber (Number.fromF64 (F64.finite false 0))
      (Number.fromF64 (F64.finite true 0)) = true ∧
    Number.hashInput (Number.fromF64 (F64.finite false 0)) =
      Number.hashInput (Number.fromF64 (F64.finite true 0)) ∧
    (∀ a b : Number, Number.beqNumber a b = true →
      Number.hashInput a = Number.hashInput b) := by
  refine ⟨by decide, by decide, by decide, ?_⟩
  intro a b h
  cases a <;> cases b <;> simp only [Number.beqNumber] at h
  all_goals try (exact absurd h (by decide))
  case posInt.posInt m n =>
    have hm : m = n := by simpa using h
    rw [hm]
  case negInt.negInt m n =>
    have hm : m = n := by simpa using h
    rw [hm]
  case nan.nan => rfl
  case inf.inf x y =>
    have hm : x = y := by simpa using h
    rw [hm]
  case float.float f g =>
    simp only [Number.hashInput]
    by_cases hz : F64.ieeeEq f (F64.finite false 0) = true
    · have hz2 : F64.ieeeEq g (F64.finite false 0) = true := by
        cases f <;> cases g <;>
          simp only [F64.ieeeEq, F64.val, decide_eq_true_eq] at h hz ⊢ <;>
          simp_all
      rw [if_pos hz, if_pos hz2]
    · have hz2 : ¬ F64.ieeeEq g (F64.finite false 0) = true := by
        intro hc
        apply hz
        cases f <;> cases g <;>
          simp only [F64.ieeeEq, F64.val, decide_eq_true_eq] at h hc ⊢ <;>
          simp_all
      rw [if_neg hz, if_neg hz2]
      cases f with
      | finite s1 m1 =>
        cases g with
        | finite s2 m2 => rw [ieeeEq_finite_inj s1 s2 m1 m2 h hz]
        | nan => simp [F64.ieeeEq] at h
        | inf b2 => simp [F64.ieeeEq] at h
      | nan => cases g <;> simp [F64.ieeeEq] at h
      | inf b1 =>
        cases g with
        | finite s m => simp [F64.ieeeEq] at h
        | nan => simp [F64.ieeeEq] at h
        | inf b2 =>
          have hm : b1 = b2 := by simpa [F64.ieeeEq] using h
          rw [hm]

/-- Witness for `number_eq_hash_consistent`: the hash-consistency implication
applied to the concretely equal pair `+0.0` and `-0.0`. -/
theorem number_eq_hash_consistent_witness :
    Number.hashInput (Number.float (F64.finite false 0)) =
      Number.hashInput (Number.float (F64.finite true 0)) :=
  number_eq_hash_consistent.2.2.2 (Number.float (F64.finite false 0))
    (Number.float (F64.finite true 0)) (by decide)

/-- The two's-complement reinterpretation of the low `w` bits always lies in
the signed `w`-bit range. -/
lemma wrapI_range (w : ℕ) (hw : 1 ≤ w) (i : ℤ) :
    -(2 ^ (w - 1)) ≤ wrapI w i ∧ wrapI w i < 2 ^ (w - 1) := by
  have h2 : (2 : ℤ) ^ w = 2 ^ (w - 1) * 2 := by
    rw [← pow_succ]
    congr 1
    omega
  have hp : (0 : ℤ) < 2 ^ w := by positivity
  have hm1 := Int.emod_nonneg i (ne_of_gt hp)
  have hm2 := Int.emod_lt_of_pos i hp
  simp only [wrapI]
  split <;> omega

/-- The saturating float-to-signed-integer cast always lands in the target
range. -/
lemma f64CastInt_range (lo hi : ℤ) (hlo : lo ≤ 0) (hhi : 0 ≤ hi) (f : F64) :
    lo ≤ f64CastInt lo hi f ∧ f64CastInt lo hi f ≤ hi := by
  cases f <;> simp [f64CastInt] <;> omega

/-- The saturating float-to-unsigned-integer cast never exceeds the target
maximum. -/
lemma f64CastNat_le (hi : ℕ) (f : F64) : f64CastNat hi f ≤ hi := by
  cases f with
  | nan => simp [f64CastNat]
  | inf b => cases b <;> simp [f64CastNat]
  | finite s m => simp only [f64CastNat]; split <;> omega

/-- **C4.**  Every lossy `as_<T>` conversion is total: for each integer
target the result always lies in `[T::MIN, T::MAX]`, NaN casts to `0`, and
the infinities cast to `T::MIN` (negative) and `T::MAX` (positive); for the
float targets NaN casts to NaN and the infinities to the matching
infinities. -/
theorem as_cast_total_saturating :
    ((∀ num, -(2 ^ 7) ≤ Number.as_i8 num ∧ Number.as_i8 num ≤ 2 ^ 7 - 1) ∧
      Number.as_i8 Number.nan = 0 ∧
      Number.as_i8 (Number.inf true) = -(2 ^ 7) ∧
      Number.as_i8 (Number.inf false) = 2 ^ 7 - 1) ∧
    ((∀ num, -(2 ^ 15) ≤ Number.as_i16 num ∧ Number.as_i16 num ≤ 2 ^ 15 - 1) ∧
      Number.as_i16 Number.nan = 0 ∧
      Number.as_i16 (Number.inf true) = -(2 ^ 15) ∧
      Number.as_i16 (Number.inf false) = 2 ^ 15 - 1) ∧
    ((∀ num, -(2 ^ 31) ≤ Number.as_i32 num ∧ Number.as_i32 num ≤ 2 ^ 31 - 1) ∧
      Number.as_i32 Number.nan = 0 ∧
      Number.as_i32 (Number.inf true) = -(2 ^ 31) ∧
      Number.as_i32 (Number.inf false) = 2 ^ 31 - 1) ∧
    ((∀ num, -(2 ^ 63) ≤ Number.as_i64 num ∧ Number.as_i64 num ≤ 2 ^ 63 - 1) ∧
      Number.as_i64 Number.nan = 0 ∧
      Number.as_i64 (Number.inf true) = -(2 ^ 63) ∧
      Number.as_i64 (Number.inf false) = 2 ^ 63 - 1) ∧
    ((∀ num, -(2 ^ 63) ≤ Number.as_isize num ∧ Number.as_isize num ≤ 2 ^ 63 - 1) ∧
      Number.as_isize Number.nan = 0 ∧
      Number.as_isize (Number.inf true) = -(2 ^ 63) ∧
      Number.as_isize (Number.inf false) = 2 ^ 63 - 1) ∧
    ((∀ num, -(2 ^ 127) ≤ Number.as_i128 num ∧ Number.as_i128 num ≤ 2 ^ 127 - 1) ∧
      Number.as_i128 Number.nan = 0 ∧
      Number.as_i128 (Number.inf true) = -(2 ^ 127) ∧
      Number.as_i128 (Number.inf false) = 2 ^ 127 - 1) ∧
    ((∀ num, Number.as_u8 num ≤ 2 ^ 8 - 1) ∧
      Number.as_u8 Number.nan = 0 ∧
      Number.as_u8 (Number.inf true) = 0 ∧
      Number.as_u8 (Number.inf false) = 2 ^ 8 - 1) ∧
    ((∀ num, Number.as_u16 num ≤ 2 ^ 16 - 1) ∧
      Number.as_u16 Number.nan = 0 ∧
      Number.as_u16 (Number.inf true) = 0 ∧
      Number.as_u16 (Number.inf false) = 2 ^ 16 - 1) ∧
    ((∀ num, Number.as_u32 num ≤ 2 ^ 32 - 1) ∧
      Number.as_u32 Number.nan = 0 ∧
      Number.as_u32 (Number.inf true) = 0 ∧
      Number.as_u32 (Number.inf false) = 2 ^ 32 - 1) ∧
    ((∀ num, Number.as_u64 num ≤ 2 ^ 64 - 1) ∧
      Number.as_u64 Number.nan = 0 ∧
      Number.as_u64 (Number.inf true) = 0 ∧
      Number.as_u64 (Number.inf false) = 2 ^ 64 - 1) ∧
    ((∀ num, Number.as_usize num ≤ 2 ^ 64 - 1) ∧
      Number.as_usize Number.nan = 0 ∧
      Number.as_usize (Number.inf true) = 0 ∧
      Number.as_usize (Number.inf false) = 2 ^ 64 - 1) ∧
    ((∀ num, Number.as_u128 num ≤ 2 ^ 128 - 1) ∧
      Number.as_u128 Number.nan = 0 ∧
      Number.as_u128 (Number.inf true) = 0 ∧
      Number.as_u128 (Number.inf false) = 2 ^ 128 - 1) ∧
    (Number.as_f32 Number.nan = F64.nan ∧
      (∀ b, Number.as_f32 (Number.inf b) = F64.inf b)) ∧
    (Number.as_f64 Number.nan = F64.nan ∧
      (∀ b, Number.as_f64 (Number.inf b) = F64.inf b)) := by
  refine ⟨⟨?_, by decide, by decide, by decide⟩, ⟨?_, by decide, by decide, by decide⟩,
    ⟨?_, by decide, by decide, by decide⟩, ⟨?_, by decide, by decide, by decide⟩,
    ⟨?_, by decide, by decide, by decide⟩, ⟨?_, by decide, by decide, by decide⟩,
    ⟨?_, by decide, by decide, by decide⟩, ⟨?_, by decide, by decide, by decide⟩,
    ⟨?_, by decide, by decide, by decide⟩, ⟨?_, by decide, by decide, by decide⟩,
    ⟨?_, by decide, by decide, by decide⟩, ⟨?_, by decide, by decide, by decide⟩,
    ⟨by decide, fun b => by cases b <;> decide⟩,
    ⟨by decide, fun b => by cases b <;> decide⟩⟩
  · intro num
    cases num with
    | posInt n =>
      have h := wrapI_range 8 (by norm_num) (n : ℤ)
      constructor <;> (simp only [Number.as_i8]; omega)
    | negInt n =>
      have h := wrapI_range 8 (by norm_num) (n : ℤ)
      constructor <;> (simp only [Number.as_i8]; omega)
    | float f =>
      have h := f64CastInt_range (-(2 ^ 7)) (2 ^ 7 - 1) (by norm_num) (by norm_num) f
      constructor <;> (simp only [Number.as_i8]; omega)
    | nan => exact ⟨by decide, by decide⟩
    | inf b => cases b <;> exact ⟨by decide, by decide⟩
  · intro num
    cases num with
    | posInt n =>
      have h := wrapI_range 16 (by norm_num) (n : ℤ)
      constructor <;> (simp only [Number.as_i16]; omega)
    | negInt n =>
      have h := wrapI_range 16 (by norm_num) (n : ℤ)
      constructor <;> (simp only [Number.as_i16]; omega)
    | float f =>
      have h := f64CastInt_range (-(2 ^ 15)) (2 ^ 15 - 1) (by norm_num) (by norm_num) f
      constructor <;> (simp only [Number.as_i16]; omega)
    | nan => exact ⟨by decide, by decide⟩
    | inf b => cases b <;> exact ⟨by decide, by decide⟩
  · intro num
    cases num with
    | posInt n =>
      have h := wrapI_range 32 (by norm_num) (n : ℤ)
      constructor <;> (simp only [Number.as_i32]; omega)
    | negInt n =>
      have h := wrapI_range 32 (by norm_num) (n : ℤ)
      constructor <;> (simp only [Number.as_i32]; omega)
    | float f =>
      have h := f64CastInt_range (-(2 ^ 31)) (2 ^ 31 - 1) (by norm_num) (by norm_num) f
      constructor <;> (simp only [Number.as_i32]; omega)
    | nan => exact ⟨by decide, by decide⟩
    | inf b => cases b <;> exact ⟨by decide, by decide⟩
  · intro num
    cases num with
    | posInt n =>
      have h := wrapI_range 64 (by norm_num) (n : ℤ)
      constructor <;> (simp only [Number.as_i64]; omega)
    | negInt n =>
      have h := wrapI_range 64 (by norm_num) (n : ℤ)
      constructor <;> (simp only [Number.as_i64]; omega)
    | float f =>
      have h := f64CastInt_range (-(2 ^ 63)) (2 ^ 63 - 1) (by norm_num) (by norm_num) f
      constructor <;> (simp only [Number.as_i64]; omega)
    | nan => exact ⟨by decide, by decide⟩
    | inf b => cases b <;> exact ⟨by decide, by decide⟩
  · intro num
    cases num with
    | posInt n =>
      have h := wrapI_range 64 (by norm_num) (n : ℤ)
      constructor <;> (simp only [Number.as_isize]; omega)
    | negInt n =>
      have h := wrapI_range 64 (by norm_num) (n : ℤ)
      constructor <;> (simp only [Number.as_isize]; omega)
    | float f =>
      have h := f64CastInt_range (-(2 ^ 63)) (2 ^ 63 - 1) (by norm_num) (by norm_num) f
      constructor <;> (simp only [Number.as_isize]; omega)
    | nan => exact ⟨by decide, by decide⟩
    | inf b => cases b <;> exact ⟨by decide, by decide⟩
  · intro num
    cases num with
    | posInt n => constructor <;> (simp only [Number.as_i128]; omega)
    | negInt n =>
      constructor <;> (simp only [Number.as_i128, neg_i65_to_i128]; omega)
    | float f =>
      have h := f64CastInt_range (-(2 ^ 127)) (2 ^ 127 - 1) (by norm_num) (by norm_num) f
      constructor <;> (simp only [Number.as_i128]; omega)
    | nan => exact ⟨by decide, by decide⟩
    | inf b => cases b <;> exact ⟨by decide, by decide⟩
  · intro num
    cases num with
    | posInt n => simp only [Number.as_u8]; omega
    | negInt n => simp only [Number.as_u8]; omega
    | float f =>
      have h := f64CastNat_le (2 ^ 8 - 1) f
      simp only [Number.as_u8]; omega
    | nan => decide
    | inf b => cases b <;> decide
  · intro num
    cases num with
    | posInt n => simp only [Number.as_u16]; omega
    | negInt n => simp only [Number.as_u16]; omega
    | float f =>
      have h := f64CastNat_le (2 ^ 16 - 1) f
      simp only [Number.as_u16]; omega
    | nan => decide
    | inf b => cases b <;> decide
  · intro num
    cases num with
    | posInt n => simp only [Number.as_u32]; omega
    | negInt n => simp only [Number.as_u32]; omega
    | float f =>
      have h := f64CastNat_le (2 ^ 32 - 1) f
      simp only [Number.as_u32]; omega
    | nan => decide
    | inf b => cases b <;> decide
  · intro num
    cases num with
    | posInt n => simp only [Number.as_u64]; omega
    | negInt n => simp only [Number.as_u64]; omega
    | float f =>
      have h := f64CastNat_le (2 ^ 64 - 1) f
      simp only [Number.as_u64]; omega
    | nan => decide
    | inf b => cases b <;> decide
  · intro num
    cases num with
    | posInt n => simp only [Number.as_usize]; omega
    | negInt n => simp only [Number.as_usize]; omega
    | float f =>
      have h := f64CastNat_le (2 ^ 64 - 1) f
      simp only [Number.as_usize]; omega
    | nan => decide
    | inf b => cases b <;> decide
  · intro num
    cases num with
    | posInt n => simp only [Number.as_u128]; omega
    | negInt n => simp only [Number.as_u128, neg_i65_to_i128]; omega
    | float f =>
      have h := f64CastNat_le (2 ^ 128 - 1) f
      simp only [Number.as_u128]; omega
    | nan => decide
    | inf b => cases b <;> decide

/-- **C2.**  For every native integer type `T` with a `From<T>` impl
(`i8`–`i64`, `isize`, `u8`–`u64`, `usize`) and every value `v : T`,
construction followed by same-type exact extraction is the identity:
`Number::from(v).as_<T>_exact() == Some(v)` and
`Number::from(v).get_<T>() == Some(v)`. -/
theorem from_roundtrip_exact :
    (∀ v : ℤ, -(2 ^ 7) ≤ v → v ≤ 2 ^ 7 - 1 →
      Number.get_i8 (Number.fromInt v) = some v ∧
      Number.as_i8_exact (Number.fromInt v) = some v) ∧
    (∀ v : ℤ, -(2 ^ 15) ≤ v → v ≤ 2 ^ 15 - 1 →
      Number.get_i16 (Number.fromInt v) = some v ∧
      Number.as_i16_exact (Number.fromInt v) = some v) ∧
    (∀ v : ℤ, -(2 ^ 31) ≤ v → v ≤ 2 ^ 31 - 1 →
      Number.get_i32 (Number.fromInt v) = some v ∧
      Number.as_i32_exact (Number.fromInt v) = some v) ∧
    (∀ v : ℤ, -(2 ^ 63) ≤ v → v ≤ 2 ^ 63 - 1 →
      Number.get_i64 (Number.fromInt v) = some v ∧
      Number.as_i64_exact (Number.fromInt v) = some v) ∧
    (∀ v : ℤ, -(2 ^ 63) ≤ v → v ≤ 2 ^ 63 - 1 →
      Number.get_isize (Number.fromInt v) = some v ∧
      Number.as_isize_exact (Number.fromInt v) = some v) ∧
    (∀ v : ℕ, v ≤ 2 ^ 8 - 1 →
      Number.get_u8 (Number.fromNat v) = some v ∧
      Number.as_u8_exact (Number.fromNat v) = some v) ∧
    (∀ v : ℕ, v ≤ 2 ^ 16 - 1 →
      Number.get_u16 (Number.fromNat v) = some v ∧
      Number.as_u16_exact (Number.fromNat v) = some v) ∧
    (∀ v : ℕ, v ≤ 2 ^ 32 - 1 →
      Number.get_u32 (Number.fromNat v) = some v ∧
      Number.as_u32_exact (Number.fromNat v) = some v) ∧
    (∀ v : ℕ, v ≤ 2 ^ 64 - 1 →
      Number.get_u64 (Number.fromNat v) = some v ∧
      Number.as_u64_exact (Number.fromNat v) = some v) ∧
    (∀ v : ℕ, v ≤ 2 ^ 64 - 1 →
      Number.get_usize (Number.fromNat v) = some v ∧
      Number.as_usize_exact (Number.fromNat v) = some v) := by
  refine ⟨?_, ?_, ?_, ?_, ?_, ?_, ?_, ?_, ?_, ?_⟩
  · intro v h1 h2
    unfold Number.fromInt
    by_cases h0 : 0 ≤ v
    all_goals
    · first | rw [if_pos h0] | rw [if_neg h0]
      constructor <;>
      · simp only [Number.get_i8, Number.as_i8_exact, wrapI]
        repeat' split
        all_goals first
          | (exfalso; omega)
          | (simp only [Option.some.injEq]; omega)
  · intro v h1 h2
    unfold Number.fromInt
    by_cases h0 : 0 ≤ v
    all_goals
    · first | rw [if_pos h0] | rw [if_neg h0]
      constructor <;>
      · simp only [Number.get_i16, Number.as_i16_exact, wrapI]
        repeat' split
        all_goals first
          | (exfalso; omega)
          | (simp only [Option.some.injEq]; omega)
  · intro v h1 h2
    unfold Number.fromInt
    by_cases h0 : 0 ≤ v
    all_goals
    · first | rw [if_pos h0] | rw [if_neg h0]
      constructor <;>
      · simp only [Number.get_i32, Number.as_i32_exact, wrapI]
        repeat' split
        all_goals first
          | (exfalso; omega)
          | (simp only [Option.some.injEq]; omega)
  · intro v h1 h2
    unfold Number.fromInt
    by_cases h0 : 0 ≤ v
    all_goals
    · first | rw [if_pos h0] | rw [if_neg h0]
      constructor <;>
      · simp only [Number.get_i64, Number.as_i64_exact, wrapI]
        repeat' split
        all_goals first
          | (exfalso; omega)
          | (simp only [Option.some.injEq]; omega)
  · intro v h1 h2
    unfold Number.fromInt
    by_cases h0 : 0 ≤ v
    all_goals
    · first | rw [if_pos h0] | rw [if_neg h0]
      constructor <;>
      · simp only [Number.get_isize, Number.as_isize_exact, wrapI]
        repeat' split
        all_goals first
          | (exfalso; omega)
          | (simp only [Option.some.injEq]; omega)
  · intro v h1
    constructor <;>
    · simp only [Number.fromNat, Number.get_u8, Number.as_u8_exact]
      repeat' split
      all_goals first
        | (exfalso; omega)
        | (simp only [Option.some.injEq]; omega)
  · intro v h1
    constructor <;>
    · simp only [Number.fromNat, Number.get_u16, Number.as_u16_exact]
      repeat' split
      all_goals first
        | (exfalso; omega)
        | (simp only [Option.some.injEq]; omega)
  · intro v h1
    constructor <;>
    · simp only [Number.fromNat, Number.get_u32, Number.as_u32_exact]
      repeat' split
      all_goals first
        | (exfalso; omega)
        | (simp only [Option.some.injEq]; omega)
  · intro v h1
    constructor <;>
    · simp only [Number.fromNat, Number.get_u64, Number.as_u64_exact]
      repeat' split
      all_goals first
        | (exfalso; omega)
        | (simp only [Option.some.injEq]; omega)
  · intro v h1
    constructor <;>
    · simp only [Number.fromNat, Number.get_usize, Number.as_usize_exact]
      repeat' split
      all_goals first
        | (exfalso; omega)
        | (simp only [Option.some.injEq]; omega)

/-- Witness for `from_roundtrip_exact` at concrete inputs: `-100` for each
signed type, `200` for the narrow unsigned types, and `2^60 + 5` for the
64-bit unsigned widths. -/
theorem from_roundtrip_exact_witness :
    (Number.get_i8 (Number.fromInt (-100)) = some (-100) ∧
      Number.as_i8_exact (Number.fromInt (-100)) = some (-100)) ∧
    (Number.get_i16 (Number.fromInt (-100)) = some (-100) ∧
      Number.as_i16_exact (Number.fromInt (-100)) = some (-100)) ∧
    (Number.get_i32 (Number.fromInt (-100)) = some (-100) ∧
      Number.as_i32_exact (Number.fromInt (-100)) = some (-100)) ∧
    (Number.get_i64 (Number.fromInt (-100)) = some (-100) ∧
      Number.as_i64_exact (Number.fromInt (-100)) = some (-100)) ∧
    (Number.get_isize (Number.fromInt (-100)) = some (-100) ∧
      Number.as_isize_exact (Number.fromInt (-100)) = some (-100)) ∧
    (Number.get_u8 (Number.fromNat 200) = some 200 ∧
      Number.as_u8_exact (Number.fromNat 200) = some 200) ∧
    (Number.get_u16 (Number.fromNat 200) = some 200 ∧
      Number.as_u16_exact (Number.fromNat 200) = some 200) ∧
    (Number.get_u32 (Number.fromNat 200) = some 200 ∧
      Number.as_u32_exact (Number.fromNat 200) = some 200) ∧
    (Number.get_u64 (Number.fromNat (2 ^ 60 + 5)) = some (2 ^ 60 + 5) ∧
      Number.as_u64_exact (Number.fromNat (2 ^ 60 + 5)) = some (2 ^ 60 + 5)) ∧
    (Number.get_usize (Number.fromNat (2 ^ 60 + 5)) = some (2 ^ 60 + 5) ∧
      Number.as_usize_exact (Number.fromNat (2 ^ 60 + 5)) = some (2 ^ 60 + 5)) :=
  ⟨from_roundtrip_exact.1 (-100) (by decide) (by decide),
    from_roundtrip_exact.2.1 (-100) (by decide) (by decide),
    from_roundtrip_exact.2.2.1 (-100) (by decide) (by decide),
    from_roundtrip_exact.2.2.2.1 (-100) (by decide) (by decide),
    from_roundtrip_exact.2.2.2.2.1 (-100) (by decide) (by decide),
    from_roundtrip_exact.2.2.2.2.2.1 200 (by decide),
    from_roundtrip_exact.2.2.2.2.2.2.1 200 (by decide),
    from_roundtrip_exact.2.2.2.2.2.2.2.1 200 (by decide),
    from_roundtrip_exact.2.2.2.2.2.2.2.2.1 (2 ^ 60 + 5) (by decide),
    from_roundtrip_exact.2.2.2.2.2.2.2.2.2 (2 ^ 60 + 5) (by decide)⟩

/-- **C10.**  Mixed-type equality between a `Number` and a primitive value
`t : T` holds exactly when `as_<T>_exact()` produces `t`: for integer targets
this means `as_<T>_exact() == Some(t)` literally, for float targets the
produced payload compares IEEE-equal to `t`.  Consequently
`Number::from(1u64) == 1.0f64` is true even though
`Number::from(1u64) != Number::from(1.0f64)` as `Number`s. -/
theorem mixed_eq_iff_exact :
    (∀ n t, Number.eqPrimI8 n t = true ↔ Number.as_i8_exact n = some t) ∧
    (∀ n t, Number.eqPrimI16 n t = true ↔ Number.as_i16_exact n = some t) ∧
    (∀ n t, Number.eqPrimI32 n t = true ↔ Number.as_i32_exact n = some t) ∧
    (∀ n t, Number.eqPrimI64 n t = true ↔ Number.as_i64_exact n = some t) ∧
    (∀ n t, Number.eqPrimIsize n t = true ↔ Number.as_isize_exact n = some t) ∧
    (∀ n t, Number.eqPrimI128 n t = true ↔ Number.as_i128_exact n = some t) ∧
    (∀ n t, Number.eqPrimU8 n t = true ↔ Number.as_u8_exact n = some t) ∧
    (∀ n t, Number.eqPrimU16 n t = true ↔ Number.as_u16_exact n = some t) ∧
    (∀ n t, Number.eqPrimU32 n t = true ↔ Number.as_u32_exact n = some t) ∧
    (∀ n t, Number.eqPrimU64 n t = true ↔ Number.as_u64_exact n = some t) ∧
    (∀ n t, Number.eqPrimUsize n t = true ↔ Number.as_usize_exact n = some t) ∧
    (∀ n t, Number.eqPrimU128 n t = true ↔ Number.as_u128_exact n = some t) ∧
    (∀ n t, Number.eqPrimF32 n t = true ↔
      ∃ x, Number.as_f32_exact n = some x ∧ F64.ieeeEq x t = true) ∧
    (∀ n t, Number.eqPrimF64 n t = true ↔
      ∃ x, Number.as_f64_exact n = some x ∧ F64.ieeeEq x t = true) ∧
    Number.eqPrimF64 (Number.fromNat 1) (F64.finite false 1) = true ∧
    Number.beqNumber (Number.fromNat 1) (Number.fromF64 (F64.finite false 1)) = false := by
  refine ⟨fun n t => by simp [Number.eqPrimI8],
    fun n t => by simp [Number.eqPrimI16],
    fun n t => by simp [Number.eqPrimI32],
    fun n t => by simp [Number.eqPrimI64],
    fun n t => by simp [Number.eqPrimIsize],
    fun n t => by simp [Number.eqPrimI128],
    fun n t => by simp [Number.eqPrimU8],
    fun n t => by simp [Number.eqPrimU16],
    fun n t => by simp [Number.eqPrimU32],
    fun n t => by simp [Number.eqPrimU64],
    fun n t => by simp [Number.eqPrimUsize],
    fun n t => by simp [Number.eqPrimU128],
    fun n t => ?_, fun n t => ?_, by decide, by decide⟩
  · unfold Number.eqPrimF32
    cases h : n.as_f32_exact <;> simp [h]
  · unfold Number.eqPrimF64
    cases h : n.as_f64_exact <;> simp [h]

/-- **C7.**  The `get`/`get_mut`/`get_or_insert` family (thin `.ok()` wrappers
over `index_into`/`index_into_mut`/`index_into_or_insert`) classifies every
read access by the spec's three-way taxonomy (`NotIndexable` on scalars,
`IncompatibleIndexType` on container/index-kind mismatch, `KeyNotFound` on an
absent key or out-of-bounds position), returned as a recoverable result; and
`index_into_or_insert` never produces `KeyNotFound`. -/
theorem index_error_taxonomy :
    (∀ (idx : Index) (v : Value), indexInto idx v = specReadOutcome idx v) ∧
    (∀ (idx : Index) (v : Value), indexIntoMut idx v = specReadOutcome idx v) ∧
    (∀ (idx : Index) (v : Value),
      indexIntoOrInsert idx v ≠ .error .keyNotFound) ∧
    (∀ (idx : Index) (v : Value), Value.get idx v = (indexInto idx v).toOption) ∧
    (∀ (idx : Index) (v : Value),
      Value.get_mut idx v = (indexIntoMut idx v).toOption) ∧
    (∀ (idx : Index) (v : Value),
      Value.get_or_insert idx v = (indexIntoOrInsert idx v).toOption) := by
  refine ⟨?_, ?_, ?_, fun idx v => rfl, fun idx v => rfl, fun idx v => rfl⟩
  · intro idx v
    cases idx <;> cases v <;> rfl
  · intro idx v
    cases idx <;> cases v <;> rfl
  · intro idx v
    cases idx <;> cases v <;> simp [indexIntoOrInsert, usizeIndexIntoOrInsert,
      strIndexIntoOrInsert, Value.is_map, Value.is_vector]

/-- Inserting a `Null` placeholder for an absent key makes the key read back
as `Null`. -/
lemma mapGet_entryOrInsertNull (k : String) (m : List (String × Value))
    (h : mapGet k m = none) :
    mapGet k (mapEntryOrInsertNull k m) = some .null := by
  induction m with
  | nil => simp [mapEntryOrInsertNull, mapGet]
  | cons hd tl ih =>
    obtain ⟨k', v⟩ := hd
    simp only [mapGet] at h
    by_cases hk : k = k'
    · simp [hk] at h
    · simp only [mapEntryOrInsertNull, if_neg hk]
      by_cases hlt : k < k'
      · simp [hlt, mapGet]
      · simp only [if_neg hlt, mapGet, if_neg hk]
        exact ih (by simpa [if_neg hk] using h)

/-- **C8.**  `get_or_insert` on a map with an absent key inserts a `Null`
placeholder there (the returned reference reads `Null`); on a vector with an
out-of-bounds position `p` it extends the vector with `Null` through `p` and
the returned reference focuses slot `p`; concretely, `[1, 2].get_or_insert(4)`
yields `[1, 2, Null, Null, Null]` and writing `5` through the returned
reference yields `[1, 2, Null, Null, 5]`. -/
theorem get_or_insert_null_placeholder :
    (∀ (k : String) (m : List (String × Value)), mapGet k m = none →
      Value.get_or_insert (.key k) (.map m) =
        some (.map (mapEntryOrInsertNull k m)) ∧
      mapGet k (mapEntryOrInsertNull k m) = some .null) ∧
    (∀ (i : ℕ) (l : List Value), l.length ≤ i →
      Value.get_or_insert (.position i) (.vector l) =
        some (.vector (l ++ List.replicate (i - l.length + 1) .null)) ∧
      (l ++ List.replicate (i - l.length + 1) Value.null).get? i = some .null) ∧
    (Value.get_or_insert (.position 4)
        (.vector [.number (.posInt 1), .number (.posInt 2)]) =
      some (.vector [.number (.posInt 1), .number (.posInt 2), .null, .null, .null]) ∧
      writeFocus (.position 4) (.number (.posInt 5))
          (.vector [.number (.posInt 1), .number (.posInt 2), .null, .null, .null]) =
        .vector [.number (.posInt 1), .number (.posInt 2), .null, .null,
          .number (.posInt 5)]) := by
  refine ⟨?_, ?_, rfl, rfl⟩
  · intro k m h
    refine ⟨rfl, mapGet_entryOrInsertNull k m h⟩
  · intro i l h
    refine ⟨?_, ?_⟩
    · simp only [Value.get_or_insert, indexIntoOrInsert, usizeIndexIntoOrInsert,
        if_pos h, Except.toOption]
    · rw [List.get?_append_right h]
      simp

/-- Witness for `get_or_insert_null_placeholder`: the empty map with key
`"k"`, and the vector `[1, 2]` with position `4`. -/
theorem get_or_insert_null_placeholder_witness :
    (Value.get_or_insert (.key "k") (.map []) =
        some (.map (mapEntryOrInsertNull "k" [])) ∧
      mapGet "k" (mapEntryOrInsertNull "k" []) = some .null) ∧
    (Value.get_or_insert (.position 4)
        (.vector [.number (.posInt 1), .number (.posInt 2)]) =
      some (.vector ([.number (.posInt 1), .number (.posInt 2)] ++
        List.replicate (4 - 2 + 1) .null)) ∧
      (([.number (.posInt 1), .number (.posInt 2)] : List Value) ++
        List.replicate (4 - 2 + 1) Value.null).get? 4 = some .null) :=
  ⟨get_or_insert_null_placeholder.1 "k" [] rfl,
    get_or_insert_null_placeholder.2.1 4
      [.number (.posInt 1), .number (.posInt 2)] (by decide)⟩

/-- **C9.**  Operator-style read indexing returns `Null` when the container
and index kind match but the entry is absent, and panics (modelled by `none`)
on `NotIndexable`/`IncompatibleIndexType`; operator-style write indexing
auto-inserts/extends exactly like `get_or_insert` and panics on the same two
cases. -/
theorem op_index_panic_or_default :
    (∀ (idx : Index) (v : Value), opIndexMut idx v = Value.get_or_insert idx v) ∧
    (∀ idx : Index, opIndex idx .null = none ∧ opIndexMut idx .null = none) ∧
    (∀ (idx : Index) (b : Bool),
      opIndex idx (.boolean b) = none ∧ opIndexMut idx (.boolean b) = none) ∧
    (∀ (idx : Index) (n : Number),
      opIndex idx (.number n) = none ∧ opIndexMut idx (.number n) = none) ∧
    (∀ (idx : Index) (s : String),
      opIndex idx (.string s) = none ∧ opIndexMut idx (.string s) = none) ∧
    (∀ (k : String) (l : List Value),
      opIndex (.key k) (.vector l) = none ∧ opIndexMut (.key k) (.vector l) = none) ∧
    (∀ (i : ℕ) (m : List (String × Value)),
      opIndex (.position i) (.map m) = none ∧
      opIndexMut (.position i) (.map m) = none) ∧
    (∀ (i : ℕ) (l : List Value),
      opIndex (.position i) (.vector l) = some ((l.get? i).getD .null)) ∧
    (∀ (k : String) (m : List (String × Value)),
      opIndex (.key k) (.map m) = some ((mapGet k m).getD .null)) := by
  refine ⟨?_, fun idx => ?_, fun idx b => ?_, fun idx n => ?_, fun idx s => ?_,
    fun k l => ⟨rfl, rfl⟩, fun i m => ⟨rfl, rfl⟩, ?_, ?_⟩
  · intro idx v
    cases idx <;> cases v <;> rfl
  · cases idx <;> exact ⟨rfl, rfl⟩
  · cases idx <;> exact ⟨rfl, rfl⟩
  · cases idx <;> exact ⟨rfl, rfl⟩
  · cases idx <;> exact ⟨rfl, rfl⟩
  · intro i l
    cases h : l.get? i <;>
      simp only [opIndex, indexInto, usizeIndexInto, h] <;> rfl
  · intro k m
    cases h : mapGet k m <;>
      simp only [opIndex, indexInto, strIndexInto, h] <;> rfl

end Twic
